import Mathlib

/-!
Formal model of the kino.mail.ru top-films scraper (src/23_2_1.py).

The script has three parts, all embedded here:
* `Film` — the dataclass holding one record (all fields strings,
  `director` defaulted to `""`).
* `parse_film_card` — per-card field extraction (`_parse_film_card`),
  including the broad `except` that converts any in-card failure to
  "no record".
* `get_top_films` — the pagination loop with count validation, and
  `save_to_json` modelled as the exact text `json.dump(..., ensure_ascii=False,
  indent=2)` writes, together with a JSON reader used to state the
  round-trip property.

The HTML environment is abstracted as data: a `Card` holds exactly the
values the five CSS selectors of `_parse_film_card` can observe (the text
of the title element if present, the texts of the detail anchors, ...),
the network is a list of optional page bodies (`none` = request failure,
mirroring `_get_page` returning `None`), and BeautifulSoup's
`select('div.p-itemevent-small')` is a function from the page body to the
card list.
-/

set_option maxRecDepth 4000

namespace KinoMail

/-- The `Film` dataclass of the source: eight string fields, `director`
defaulted to the empty string and never populated by the extractor. -/
structure Film where
  title : String
  original_title : String
  year : String
  rating : String
  genres : String
  country : String
  url : String
  director : String := ""
deriving DecidableEq, Repr

/-- The anchor found by `select_one('a.link-holder_itemevent_small')`:
its `href` attribute may be missing (`'href' not in url_elem.attrs`). -/
structure UrlAnchor where
  href : Option String
deriving DecidableEq, Repr

/-- One film card, holding exactly what the selectors of
`_parse_film_card` can observe:

* `title_elem` — text of `select_one('span.link__text')`, `none` when the
  element is absent;
* `original_title_elem` — text of
  `select_one('span.text_light_small.color_gray')`;
* `details` — the texts of the anchors `select('div.margin_top_5 a')`,
  in document order;
* `rating_elem` — text of `select_one('span.p-rate-flag__text')`;
* `url_elem` — the `select_one('a.link-holder_itemevent_small')` anchor;
* `raisesExn` — set when touching this card raises an unexpected
  exception inside the HTML library (malformed nesting); this is the
  event the card-level `try`/`except` of `_parse_film_card` catches. -/
structure Card where
  title_elem : Option String
  original_title_elem : Option String
  details : List String
  rating_elem : Option String
  url_elem : Option UrlAnchor
  raisesExn : Bool
deriving DecidableEq, Repr

/-- `self.base_url` fixed in `__init__`. -/
def base_url : String := "https://kino.mail.ru"

/-- Python's `str.strip()` with no arguments: remove leading and trailing
whitespace. -/
def strip (s : String) : String :=
  String.mk (((s.data.dropWhile Char.isWhitespace).reverse.dropWhile
    Char.isWhitespace).reverse)

/-- The body of `_parse_film_card` before its `except` handler: either the
normal result (a `Film`, or `None` for a card whose title element or URL
anchor/href is missing) or the exception the handler will catch. -/
def parse_film_card_body (card : Card) : Except String (Option Film) :=
  if card.raisesExn then
    Except.error "Ошибка парсинга карточки фильма"
  else
    match card.title_elem with
    | none => Except.ok none
    | some t =>
      let title := strip t
      let original_title :=
        match card.original_title_elem with
        | some o => strip o
        | none => ""
      let details := card.details
      let country := if details.length > 0 then strip (details.getD 0 "") else ""
      let year := if details.length > 1 then strip (details.getD 1 "") else ""
      let genres :=
        if details.length > 2 then ", ".intercalate ((details.drop 2).map strip)
        else ""
      let rating :=
        match card.rating_elem with
        | some r => strip r
        | none => "Н/Д"
      match card.url_elem with
      | none => Except.ok none
      | some anchor =>
        match anchor.href with
        | none => Except.ok none
        | some href =>
          Except.ok (some { title := title, original_title := original_title,
                            year := year, rating := rating, genres := genres,
                            country := country, url := base_url ++ href,
                            director := "" })

/-- `_parse_film_card`: the `except Exception` handler prints and returns
`None`, so an exception becomes a no-record outcome. -/
def parse_film_card (card : Card) : Option Film :=
  match parse_film_card_body card with
  | Except.ok r => r
  | Except.error _ => none

/-- The records the cards of one page yield, in card order. -/
def valid_films (cards : List Card) : List Film :=
  cards.filterMap parse_film_card

/-- The `for card in cards` loop of `get_top_films`: append each parsed
record and break out of the page as soon as `len(films) >= count`. -/
def scan_cards (count : Nat) (films : List Film) : List Card → List Film
  | [] => films
  | c :: rest =>
    match parse_film_card c with
    | some film =>
      let films2 := films ++ [film]
      if count ≤ films2.length then films2 else scan_cards count films2 rest
    | none => scan_cards count films rest

/-- The `while len(films) < count` loop of `get_top_films`.

* `pages` is the sequence of fetch outcomes for pages 1, 2, ...: `none`
  models `_get_page` returning `None` (request exception); past the end of
  the list every further fetch fails.  `parse_cards` models
  `BeautifulSoup(html).select('div.p-itemevent-small')`.
* The second component counts the fetches performed (`_get_page` calls),
  including the final failing one.
* `if not html: break` fires both on `None` and on the empty string
  (falsy in Python); `if not cards: break` fires on an empty card list. -/
def get_top_films_loop (count : Nat) (parse_cards : String → List Card) :
    List Film → List (Option String) → List Film × Nat
  | films, [] => if films.length < count then (films, 1) else (films, 0)
  | films, p :: rest =>
    if films.length < count then
      match p with
      | none => (films, 1)
      | some html =>
        if html = "" then (films, 1)
        else if parse_cards html = [] then (films, 1)
        else
          let r := get_top_films_loop count parse_cards
                     (scan_cards count films (parse_cards html)) rest
          (r.1, r.2 + 1)
    else (films, 0)

/-- `get_top_films` with the fetch counter exposed: the `ValueError` of the
count validation is the `Except.error` case, raised before the loop runs
(fetch count `0`). -/
def get_top_films_run (count : Int) (parse_cards : String → List Card)
    (pages : List (Option String)) : Except String (List Film) × Nat :=
  if count < 1 ∨ 150 < count then
    (Except.error "Можно собрать от 1 до 150 фильмов", 0)
  else
    let r := get_top_films_loop count.toNat parse_cards [] pages
    (Except.ok (r.1.take count.toNat), r.2)

/-- `get_top_films` itself: validation, pagination loop, `films[:count]`. -/
def get_top_films (count : Int) (parse_cards : String → List Card)
    (pages : List (Option String)) : Except String (List Film) :=
  (get_top_films_run count parse_cards pages).1

/-- The records of the pages the loop can actually process: the longest
prefix of successful, non-empty fetches whose card list is non-empty,
page order then in-page card order. -/
def pages_films (parse_cards : String → List Card) :
    List (Option String) → List Film
  | [] => []
  | none :: _ => []
  | some html :: rest =>
    if html = "" then []
    else if parse_cards html = [] then []
    else valid_films (parse_cards html) ++ pages_films parse_cards rest

/-- All records of a list of page bodies, with no stopping condition
(used to state what "the pages fetched before the failure" contain). -/
def all_films (parse_cards : String → List Card) : List String → List Film
  | [] => []
  | h :: t => valid_films (parse_cards h) ++ all_films parse_cards t

/-- `valid_films` on a cons whose head parses. -/
lemma valid_films_cons_some {c : Card} {f : Film} (h : parse_film_card c = some f)
    (rest : List Card) : valid_films (c :: rest) = f :: valid_films rest := by
  simp [valid_films, List.filterMap_cons, h]

/-- `valid_films` on a cons whose head does not parse. -/
lemma valid_films_cons_none {c : Card} (h : parse_film_card c = none)
    (rest : List Card) : valid_films (c :: rest) = valid_films rest := by
  simp [valid_films, List.filterMap_cons, h]

/-- The in-page card loop computes the first `count` records: as long as
the accumulator is below `count`, scanning a page appends the page's
records and truncates at `count` (the mid-page `break`). -/
lemma scan_cards_eq (count : Nat) (films : List Film) (cards : List Card)
    (h : films.length < count) :
    scan_cards count films cards = (films ++ valid_films cards).take count := by
  induction cards generalizing films with
  | nil =>
    simp [scan_cards, valid_films]
    omega
  | cons c rest ih =>
    cases hc : parse_film_card c with
    | none =>
      rw [valid_films_cons_none hc]
      simp only [scan_cards, hc]
      exact ih films h
    | some f =>
      rw [valid_films_cons_some hc]
      simp only [scan_cards, hc]
      by_cases h2 : count ≤ (films ++ [f]).length
      · have hlen : (films ++ [f]).length = count := by
          simp only [List.length_append, List.length_cons, List.length_nil] at h2 ⊢
          omega
        simp only [if_pos h2]
        rw [show films ++ f :: valid_films rest = (films ++ [f]) ++ valid_films rest by simp]
        rw [List.take_append_eq_append_take, hlen, Nat.sub_self, List.take_zero,
          List.append_nil, List.take_of_length_le (Nat.le_of_eq hlen)]
      · simp only [if_neg h2]
        rw [ih (films ++ [f]) (Nat.lt_of_not_le h2)]
        simp

/-- If truncation at `n` left fewer than `n` elements, nothing was cut. -/
lemma take_eq_of_length_take_lt {α : Type} {l : List α} {n : Nat}
    (h : (l.take n).length < n) : l.take n = l := by
  rw [List.length_take] at h
  exact List.take_of_length_le (by omega)

/-- The pagination loop computes the first `count` records of the
processable page prefix. -/
lemma get_top_films_loop_fst (count : Nat) (parse_cards : String → List Card)
    (films : List Film) (pages : List (Option String))
    (h : films.length < count) :
    (get_top_films_loop count parse_cards films pages).1
      = (films ++ pages_films parse_cards pages).take count := by
  induction pages generalizing films with
  | nil =>
    simp only [get_top_films_loop, if_pos h, pages_films, List.append_nil]
    exact (List.take_of_length_le (Nat.le_of_lt h)).symm
  | cons p rest ih =>
    cases p with
    | none =>
      simp only [get_top_films_loop, if_pos h, pages_films, List.append_nil]
      exact (List.take_of_length_le (Nat.le_of_lt h)).symm
    | some html =>
      by_cases hh : html = ""
      · simp only [get_top_films_loop, if_pos h, pages_films, if_pos hh, List.append_nil]
        exact (List.take_of_length_le (Nat.le_of_lt h)).symm
      · by_cases hc : parse_cards html = []
        · simp only [get_top_films_loop, if_pos h, pages_films, if_neg hh, if_pos hc,
            List.append_nil]
          exact (List.take_of_length_le (Nat.le_of_lt h)).symm
        · simp only [get_top_films_loop, if_pos h, if_neg hh, if_neg hc, pages_films]
          rw [scan_cards_eq count films (parse_cards html) h]
          by_cases h2 : ((films ++ valid_films (parse_cards html)).take count).length < count
          · rw [ih _ h2, take_eq_of_length_take_lt h2]
            simp
          · have hAc : ((films ++ valid_films (parse_cards html)).take count).length = count := by
              have := List.length_take count (films ++ valid_films (parse_cards html))
              omega
            have hstop : (get_top_films_loop count parse_cards
                ((films ++ valid_films (parse_cards html)).take count) rest).1
                = (films ++ valid_films (parse_cards html)).take count := by
              cases rest with
              | nil => simp [get_top_films_loop, hAc]
              | cons q t => simp [get_top_films_loop, hAc]
            rw [hstop]
            rw [show films ++ (valid_films (parse_cards html) ++ pages_films parse_cards rest)
                  = (films ++ valid_films (parse_cards html)) ++ pages_films parse_cards rest
                by simp]
            have hge : count ≤ (films ++ valid_films (parse_cards html)).length := by
              have := List.length_take count (films ++ valid_films (parse_cards html))
              omega
            rw [@List.take_append_eq_append_take _ (films ++ valid_films (parse_cards html))
                (pages_films parse_cards rest) count,
              Nat.sub_eq_zero_of_le hge, List.take_zero, List.append_nil]

/-- Closed form of `get_top_films` for a valid count: the result is the
record sequence of the processable page prefix, truncated to `count`. -/
lemma get_top_films_characterization (count : Int)
    (parse_cards : String → List Card) (pages : List (Option String))
    (h1 : 1 ≤ count) (h2 : count ≤ 150) :
    get_top_films count parse_cards pages
      = Except.ok ((pages_films parse_cards pages).take count.toNat) := by
  have hv : ¬(count < 1 ∨ 150 < count) := by omega
  have hpos : 0 < count.toNat := by omega
  simp only [get_top_films, get_top_films_run, if_neg hv]
  rw [get_top_films_loop_fst count.toNat parse_cards [] pages (by simpa using hpos)]
  simp [List.take_take]

/-- Elimination form of a successful card parse: the card did not raise,
has a title element and a URL anchor with an `href`, and every field of
the produced record is the corresponding extraction expression. -/
lemma parse_film_card_some_elim {c : Card} {f : Film}
    (h : parse_film_card c = some f) :
    ∃ t href, c.raisesExn = false ∧ c.title_elem = some t ∧
      c.url_elem.bind UrlAnchor.href = some href ∧
      f.title = strip t ∧
      f.url = base_url ++ href ∧
      f.director = "" ∧
      f.country = (if c.details.length > 0 then strip (c.details.getD 0 "") else "") ∧
      f.year = (if c.details.length > 1 then strip (c.details.getD 1 "") else "") ∧
      f.genres = (if c.details.length > 2
        then ", ".intercalate ((c.details.drop 2).map strip) else "") := by
  unfold parse_film_card parse_film_card_body at h
  cases hre : c.raisesExn with
  | true => simp [hre] at h
  | false =>
    cases ht : c.title_elem with
    | none => simp [hre, ht] at h
    | some t =>
      cases hu : c.url_elem with
      | none => simp [hre, ht, hu] at h
      | some a =>
        cases ha : a.href with
        | none => simp [hre, ht, hu, ha] at h
        | some href =>
          simp only [hre, ht, hu, ha, Bool.false_eq_true, if_false,
            Option.some.injEq] at h
          subst h
          exact ⟨t, href, rfl, rfl, by simp [ha], rfl, rfl, rfl, rfl, rfl, rfl⟩

/-- A card whose title element is missing, or whose URL anchor (or its
`href` attribute) is missing, parses to nothing. -/
lemma parse_film_card_none_of_missing {c : Card}
    (h : c.title_elem = none ∨ c.url_elem = none ∨
         c.url_elem.bind UrlAnchor.href = none) :
    parse_film_card c = none := by
  cases hr : parse_film_card c with
  | none => rfl
  | some f =>
    obtain ⟨t, href, _, ht, hh, _⟩ := parse_film_card_some_elim hr
    rcases h with h | h | h
    · rw [h] at ht; cases ht
    · rw [h] at hh; cases hh
    · rw [h] at hh; cases hh

/-- Every record of the processable page prefix comes from some card. -/
lemma exists_card_of_mem_pages_films {parse_cards : String → List Card}
    {pages : List (Option String)} {f : Film}
    (h : f ∈ pages_films parse_cards pages) :
    ∃ c, parse_film_card c = some f := by
  induction pages with
  | nil => simp [pages_films] at h
  | cons p rest ih =>
    cases p with
    | none => simp [pages_films] at h
    | some html =>
      by_cases hh : html = ""
      · simp [pages_films, hh] at h
      · by_cases hc : parse_cards html = []
        · simp [pages_films, hh, hc] at h
        · simp only [pages_films, if_neg hh, if_neg hc, List.mem_append] at h
          rcases h with h | h
          · rcases List.mem_filterMap.mp h with ⟨c, _, hcf⟩
            exact ⟨c, hcf⟩
          · exact ih h

/-- `strip` of the empty string. -/
lemma strip_empty : strip "" = "" := rfl

/-- When every page before a failing fetch is processable (non-empty body,
non-empty card list), the processable prefix is exactly those pages. -/
lemma pages_films_good_prefix (parse_cards : String → List Card)
    (good : List String) (rest : List (Option String))
    (hgood : ∀ h ∈ good, h ≠ "" ∧ parse_cards h ≠ []) :
    pages_films parse_cards (good.map some ++ none :: rest)
      = all_films parse_cards good := by
  induction good with
  | nil => simp [pages_films, all_films]
  | cons g t ih =>
    obtain ⟨hg1, hg2⟩ := hgood g (by simp)
    simp only [List.map_cons, List.cons_append, pages_films, if_neg hg1, if_neg hg2,
      all_films, List.append_eq]
    rw [ih (fun x hx => hgood x (by simp [hx]))]

/-- The processable prefix ends equally at an empty body and at a failed
fetch, whatever comes afterwards. -/
lemma pages_films_empty_eq_none (parse_cards : String → List Card)
    (pre rest rest2 : List (Option String)) :
    pages_films parse_cards (pre ++ some "" :: rest)
      = pages_films parse_cards (pre ++ none :: rest2) := by
  induction pre with
  | nil => simp [pages_films]
  | cons p t ih =>
    cases p with
    | none => simp [pages_films]
    | some html =>
      by_cases hh : html = ""
      · simp [pages_films, hh]
      · by_cases hc : parse_cards html = []
        · simp [pages_films, hh, hc]
        · simp [pages_films, hh, hc, ih]

/-! Concrete cards and records used by the witnesses and counterexamples. -/

/-- A fully populated card. -/
def w_card1 : Card :=
  { title_elem := some "Фильм 1", original_title_elem := some "Film One",
    details := ["США", "2014", "фантастика", "драма"], rating_elem := some "8.6",
    url_elem := some { href := some "/film1" }, raisesExn := false }

/-- A card whose details row has exactly two anchors. -/
def w_card2 : Card :=
  { title_elem := some "Фильм 2", original_title_elem := none,
    details := ["Россия", "2020"], rating_elem := none,
    url_elem := some { href := some "/film2" }, raisesExn := false }

/-- A card with an empty details row. -/
def w_card3 : Card :=
  { title_elem := some "Фильм 3", original_title_elem := none,
    details := [], rating_elem := none,
    url_elem := some { href := some "/film3" }, raisesExn := false }

/-- A page model in which every fetched page shows these three cards. -/
def w_parse : String → List Card := fun _ => [w_card1, w_card2, w_card3]

/-- The record `w_card1` parses to. -/
def w_film1 : Film :=
  { title := "Фильм 1", original_title := "Film One", year := "2014",
    rating := "8.6", genres := "фантастика, драма", country := "США",
    url := "https://kino.mail.ru/film1", director := "" }

/-- The record `w_card2` parses to. -/
def w_film2 : Film :=
  { title := "Фильм 2", original_title := "", year := "2020",
    rating := "Н/Д", genres := "", country := "Россия",
    url := "https://kino.mail.ru/film2", director := "" }

/-- A card whose title element is present but has empty text. -/
def empty_title_card : Card :=
  { title_elem := some "", original_title_elem := none,
    details := ["США", "2000"], rating_elem := some "7.0",
    url_elem := some { href := some "/empty" }, raisesExn := false }

/-- The record `empty_title_card` parses to: its `title` is empty. -/
def empty_title_film : Film :=
  { title := "", original_title := "", year := "2000", rating := "7.0",
    genres := "", country := "США", url := "https://kino.mail.ru/empty",
    director := "" }

/-- A card whose URL anchor carries an href that is not a URL at all. -/
def malformed_href_card : Card :=
  { title_elem := some "Фильм X", original_title_elem := none,
    details := [], rating_elem := none,
    url_elem := some { href := some "не ссылка, два слова" }, raisesExn := false }

/-- The record `malformed_href_card` parses to despite the malformed href. -/
def malformed_href_film : Film :=
  { title := "Фильм X", original_title := "", year := "", rating := "Н/Д",
    genres := "", country := "",
    url := "https://kino.mail.ruне ссылка, два слова", director := "" }

/-- A two-anchor details row whose anchor texts are whitespace only. -/
def blank_details_card : Card :=
  { title_elem := some "Пустые детали", original_title_elem := none,
    details := [" ", " "], rating_elem := none,
    url_elem := some { href := some "/blank" }, raisesExn := false }

/-- The record `blank_details_card` parses to: empty `country` and `year`. -/
def blank_details_film : Film :=
  { title := "Пустые детали", original_title := "", year := "", rating := "Н/Д",
    genres := "", country := "", url := "https://kino.mail.ru/blank",
    director := "" }

/-- A card with no title element. -/
def no_title_card : Card :=
  { title_elem := none, original_title_elem := none, details := [],
    rating_elem := some "9.1", url_elem := some { href := some "/x" },
    raisesExn := false }

/-- A card with no URL anchor. -/
def no_anchor_card : Card :=
  { title_elem := some "Без ссылки", original_title_elem := none, details := [],
    rating_elem := none, url_elem := none, raisesExn := false }

/-- A card whose URL anchor has no `href` attribute. -/
def no_href_card : Card :=
  { title_elem := some "Без href", original_title_elem := none, details := [],
    rating_elem := none, url_elem := some { href := none }, raisesExn := false }

/-- A card whose extraction raises an unexpected structural exception. -/
def raising_card : Card :=
  { title_elem := some "Сломанная карточка", original_title_elem := none,
    details := [], rating_elem := none, url_elem := some { href := some "/bad" },
    raisesExn := true }

/-- A card whose anchor href is itself an absolute URL. -/
def abs_href_card : Card :=
  { title_elem := some "Чужой", original_title_elem := none, details := [],
    rating_elem := none,
    url_elem := some { href := some "https://site.example/alien" },
    raisesExn := false }

/-- The record `abs_href_card` parses to: base URL glued onto an absolute
href. -/
def abs_href_film : Film :=
  { title := "Чужой", original_title := "", year := "", rating := "Н/Д",
    genres := "", country := "",
    url := "https://kino.mail.ruhttps://site.example/alien", director := "" }

/-! The claims. -/

/-- C1: for every requested count in [1,150] and every fetch/parse
environment, `get_top_films` returns exactly the valid records of the page
prefix the loop can reach — page order then in-page card order, truncated
to `count` by the mid-page stop and the final slice — so the result has at
most `count` records (the `min` length), and exactly `count` whenever the
reachable pages hold at least `count` cards parsing to valid records. -/
theorem get_top_films_count_spec (count : Int) (parse_cards : String → List Card)
    (pages : List (Option String)) (h1 : 1 ≤ count) (h2 : count ≤ 150) :
    get_top_films count parse_cards pages
      = Except.ok ((pages_films parse_cards pages).take count.toNat)
    ∧ ((pages_films parse_cards pages).take count.toNat).length
      = min count.toNat (pages_films parse_cards pages).length :=
  ⟨get_top_films_characterization count parse_cards pages h1 h2,
   List.length_take _ _⟩

/-- Witness for C1 at count 2 over one page showing three valid cards. -/
theorem get_top_films_count_spec_witness :
    get_top_films 2 w_parse [some "p"]
      = Except.ok ((pages_films w_parse [some "p"]).take (2 : Int).toNat)
    ∧ ((pages_films w_parse [some "p"]).take (2 : Int).toNat).length
      = min (2 : Int).toNat (pages_films w_parse [some "p"]).length :=
  get_top_films_count_spec 2 w_parse [some "p"] (by decide) (by decide)

/-- C2 counterexample: the claim says every returned record has a
non-empty title, but a card whose title element exists with empty text
yields a returned record whose `title` is the empty string. -/
theorem returned_record_empty_title_cex :
    get_top_films 1 (fun _ => [empty_title_card]) [some "page"]
      = Except.ok [empty_title_film]
    ∧ empty_title_film.title = "" :=
  ⟨rfl, rfl⟩

/-- C2 as amended: every record returned by `get_top_films` has a
non-empty `url` (the code only checks that the title element is present,
so `title` is the stripped element text and may be empty), its `director`
is always the empty string, and the record shape is fixed (every `Film`
field is always present, by construction of the `Film` structure). -/
theorem returned_records_shape (count : Int) (parse_cards : String → List Card)
    (pages : List (Option String)) (films : List Film) (f : Film)
    (h1 : 1 ≤ count) (h2 : count ≤ 150)
    (hr : get_top_films count parse_cards pages = Except.ok films)
    (hf : f ∈ films) :
    f.director = "" ∧ f.url ≠ "" := by
  rw [get_top_films_characterization _ _ _ h1 h2] at hr
  injection hr with hr
  subst hr
  obtain ⟨c, hc⟩ := exists_card_of_mem_pages_films (List.mem_of_mem_take hf)
  obtain ⟨t, href, _, _, _, _, hurl, hdir, _⟩ := parse_film_card_some_elim hc
  refine ⟨hdir, ?_⟩
  intro hempty
  rw [hurl] at hempty
  have hlen := congrArg String.length hempty
  rw [String.length_append] at hlen
  have hb : base_url.length = 20 := by decide
  have h0 : ("" : String).length = 0 := rfl
  simp only [hb] at hlen
  omega

/-- Witness for C2 (amended) on a concrete successful run. -/
theorem returned_records_shape_witness :
    w_film1.director = "" ∧ w_film1.url ≠ "" :=
  returned_records_shape 1 w_parse [some "p"] [w_film1] w_film1
    (by decide) (by decide) rfl (by decide)

/-- C3 counterexample: the claim also requires a malformed href to yield
nothing, but the code performs no well-formedness check — a card whose
href is not a URL at all still yields a record (with a garbage `url`). -/
theorem malformed_href_still_parses_cex :
    parse_film_card malformed_href_card = some malformed_href_film
    ∧ malformed_href_film.url = "https://kino.mail.ruне ссылка, два слова" :=
  ⟨by decide, rfl⟩

/-- C3 as amended: a card lacking its title element, lacking the URL
anchor, or whose URL anchor lacks an `href` attribute yields nothing —
but a present `href` is used verbatim, with no malformedness check. -/
theorem missing_required_field_yields_none (c : Card)
    (h : c.title_elem = none ∨ c.url_elem = none ∨
         c.url_elem.bind UrlAnchor.href = none) :
    parse_film_card c = none :=
  parse_film_card_none_of_missing h

/-- Witness for C3 (amended): all three missing-field shapes. -/
theorem missing_required_field_yields_none_witness :
    parse_film_card no_title_card = none
    ∧ parse_film_card no_anchor_card = none
    ∧ parse_film_card no_href_card = none :=
  ⟨missing_required_field_yields_none no_title_card (Or.inl rfl),
   missing_required_field_yields_none no_anchor_card (Or.inr (Or.inl rfl)),
   missing_required_field_yields_none no_href_card (Or.inr (Or.inr rfl))⟩

/-- C4 counterexample: the claim says a two-anchor details row yields a
non-empty `country` and `year`, but the code never checks the anchor
texts — two whitespace-only anchors yield a record whose `country` (and
`year`) is empty. -/
theorem two_blank_anchors_empty_country_cex :
    blank_details_card.details.length = 2
    ∧ parse_film_card blank_details_card = some blank_details_film
    ∧ blank_details_film.country = "" :=
  ⟨rfl, by decide, rfl⟩

/-- C4 as amended: for every card that yields a record, `country` and
`year` are the stripped texts of detail anchors 0 and 1 (so each is
non-empty exactly when its anchor text has a non-whitespace character,
and empty when the position is beyond the available anchors — never an
index-out-of-range failure), and `genres` is the comma-join of the
stripped texts of anchors 2 onwards; in particular a row of exactly two
anchors yields empty `genres`. -/
theorem details_positional_mapping (c : Card) (f : Film)
    (h : parse_film_card c = some f) :
    f.country = strip (c.details.getD 0 "")
    ∧ f.year = strip (c.details.getD 1 "")
    ∧ f.genres = ", ".intercalate ((c.details.drop 2).map strip) := by
  obtain ⟨t, href, _, _, _, _, _, _, hcountry, hyear, hgenres⟩ :=
    parse_film_card_some_elim h
  refine ⟨?_, ?_, ?_⟩
  · rw [hcountry]
    rcases c.details with _ | ⟨a, d⟩ <;> simp [strip_empty]
  · rw [hyear]
    rcases c.details with _ | ⟨a, _ | ⟨b, d⟩⟩ <;> simp [strip_empty]
  · rw [hgenres]
    rcases c.details with _ | ⟨a, _ | ⟨b, _ | ⟨e, d⟩⟩⟩ <;> simp
    · rfl
    · rfl
    · rfl

/-- Witness for C4 (amended) at a card with exactly two detail anchors. -/
theorem details_positional_mapping_witness :
    w_film2.country = strip (w_card2.details.getD 0 "")
    ∧ w_film2.year = strip (w_card2.details.getD 1 "")
    ∧ w_film2.genres = ", ".intercalate ((w_card2.details.drop 2).map strip) :=
  details_positional_mapping w_card2 w_film2 (by decide)

/-- C5: a count outside [1,150] fails validation: the run raises the
`ValueError` and performs zero fetches, for every fetch environment. -/
theorem invalid_count_errors_without_fetch (count : Int)
    (parse_cards : String → List Card) (pages : List (Option String))
    (h : count < 1 ∨ 150 < count) :
    get_top_films_run count parse_cards pages
      = (Except.error "Можно собрать от 1 до 150 фильмов", 0) := by
  simp [get_top_films_run, h]

/-- Witness for C5 at the boundary counts 0 and 151. -/
theorem invalid_count_errors_without_fetch_witness :
    get_top_films_run 0 w_parse [some "p"]
      = (Except.error "Можно собрать от 1 до 150 фильмов", 0)
    ∧ get_top_films_run 151 w_parse [some "p"]
      = (Except.error "Можно собрать от 1 до 150 фильмов", 0) :=
  ⟨invalid_count_errors_without_fetch 0 w_parse [some "p"] (Or.inl (by decide)),
   invalid_count_errors_without_fetch 151 w_parse [some "p"] (Or.inr (by decide))⟩

/-- C6: when every page before a failing fetch is processable, the run
over `good` pages followed by a failed fetch returns exactly the records
collected from the `good` pages (truncated to the requested count),
whatever pages would have come after the failure — no retry, the loop
ends at the failing page. -/
theorem fetch_failure_stops_and_returns_collected (count : Int)
    (parse_cards : String → List Card) (good : List String)
    (rest : List (Option String)) (h1 : 1 ≤ count) (h2 : count ≤ 150)
    (hgood : ∀ h ∈ good, h ≠ "" ∧ parse_cards h ≠ []) :
    get_top_films count parse_cards (good.map some ++ none :: rest)
      = Except.ok ((all_films parse_cards good).take count.toNat) := by
  rw [get_top_films_characterization _ _ _ h1 h2,
    pages_films_good_prefix _ _ _ hgood]

/-- Witness for C6: one good page, then a failed fetch, then a page that
is never reached. -/
theorem fetch_failure_stops_and_returns_collected_witness :
    get_top_films 5 w_parse ([ "g" ].map some ++ none :: [some "later"])
      = Except.ok ((all_films w_parse ["g"]).take (5 : Int).toNat) :=
  fetch_failure_stops_and_returns_collected 5 w_parse ["g"] [some "later"]
    (by decide) (by decide) (by decide)

/-- C7: a card whose extraction raises is caught inside
`_parse_film_card` and becomes a no-record outcome for that card only:
scanning a page with the bad card inserted anywhere yields exactly the
scan of the page without it, for every accumulator and count. -/
theorem card_exception_isolated (c : Card) (hc : c.raisesExn = true)
    (count : Nat) (films : List Film) (pre post : List Card) :
    parse_film_card c = none
    ∧ scan_cards count films (pre ++ c :: post)
      = scan_cards count films (pre ++ post) := by
  have hnone : parse_film_card c = none := by
    simp [parse_film_card, parse_film_card_body, hc]
  refine ⟨hnone, ?_⟩
  induction pre generalizing films with
  | nil => simp [scan_cards, hnone]
  | cons d t ih =>
    cases hd : parse_film_card d with
    | none =>
      simp only [List.cons_append, scan_cards, hd]
      exact ih films
    | some f =>
      simp only [List.cons_append, scan_cards, hd]
      split
      · rfl
      · exact ih (films ++ [f])

/-- Witness for C7: the raising card dropped from the middle of a page. -/
theorem card_exception_isolated_witness :
    parse_film_card raising_card = none
    ∧ scan_cards 5 [] ([w_card1] ++ raising_card :: [w_card2])
      = scan_cards 5 [] ([w_card1] ++ [w_card2]) :=
  card_exception_isolated raising_card rfl 5 [] [w_card1] [w_card2]

/-- C9: a successful fetch with an empty body is treated exactly like a
failed fetch (`if not html` is true for both `None` and `""`): the run
over any prefix followed by an empty-body page equals the run over the
same prefix followed by a failed fetch, whatever follows either. -/
theorem empty_html_equals_fetch_failure (count : Int)
    (parse_cards : String → List Card)
    (pre rest rest2 : List (Option String)) :
    get_top_films count parse_cards (pre ++ some "" :: rest)
      = get_top_films count parse_cards (pre ++ none :: rest2) := by
  by_cases hv : count < 1 ∨ 150 < count
  · simp [get_top_films, get_top_films_run, hv]
  · have h1 : 1 ≤ count := by omega
    have h2 : count ≤ 150 := by omega
    rw [get_top_films_characterization _ _ _ h1 h2,
      get_top_films_characterization _ _ _ h1 h2,
      pages_films_empty_eq_none]

/-- C10: every returned record's `url` is the fixed base URL concatenated
with the card's `href` value — no well-formedness check — so the result
always begins with the base URL, even when the href was itself already an
absolute URL. -/
theorem url_is_base_plus_href (c : Card) (f : Film)
    (h : parse_film_card c = some f) :
    f.url = base_url ++ (c.url_elem.bind UrlAnchor.href).getD ""
    ∧ f.url.data.take base_url.data.length = base_url.data := by
  obtain ⟨t, href, _, _, hbind, _, hurl, _⟩ := parse_film_card_some_elim h
  constructor
  · rw [hurl, hbind]
    rfl
  · rw [hurl]
    rw [String.data_append]
    exact List.take_left _ _

/-- Witness for C10 at a card whose href is itself an absolute URL: the
resulting `url` is the base URL glued onto it. -/
theorem url_is_base_plus_href_witness :
    abs_href_film.url
      = base_url ++ (abs_href_card.url_elem.bind UrlAnchor.href).getD ""
    ∧ abs_href_film.url.data.take base_url.data.length = base_url.data :=
  url_is_base_plus_href abs_href_card abs_href_film (by decide)

/-! The JSON export (`save_to_json`) and a JSON reader for the round-trip
claim.  `save_to_json` writes `json.dump([vars(f) for f in films], f,
ensure_ascii=False, indent=2)`; the renderer below produces that exact
text.  With `ensure_ascii=False`, Python escapes only `"`, `\`, and
control characters below U+0020 (with the short forms `\b \t \n \f \r`
and `\u00xx` otherwise); every other character — non-ASCII included — is
written literally. -/

/-- Lower-case hex digit. -/
def hexDigit (n : Nat) : Char :=
  if n < 10 then Char.ofNat (48 + n) else Char.ofNat (87 + n)

/-- Four lower-case hex digits, as in Python's `\u%04x`. -/
def hex4 (n : Nat) : List Char :=
  [hexDigit (n / 4096 % 16), hexDigit (n / 256 % 16),
   hexDigit (n / 16 % 16), hexDigit (n % 16)]

/-- Python's JSON string escaping with `ensure_ascii=False`. -/
def esc_char (c : Char) : List Char :=
  if c = '"' then ['\\', '"']
  else if c = '\\' then ['\\', '\\']
  else if c = '\n' then ['\\', 'n']
  else if c = '\t' then ['\\', 't']
  else if c = '\r' then ['\\', 'r']
  else if c.toNat = 8 then ['\\', 'b']
  else if c.toNat = 12 then ['\\', 'f']
  else if c.toNat < 32 then '\\' :: 'u' :: hex4 c.toNat
  else [c]

/-- Escape every character of a string body. -/
def esc_chars : List Char → List Char
  | [] => []
  | c :: t => esc_char c ++ esc_chars t

/-- A JSON string literal. -/
def quote_chars (cs : List Char) : List Char :=
  '"' :: (esc_chars cs ++ ['"'])

/-- One `"key": "value"` member at `indent=2` nesting depth 2. -/
def member_chars (kv : String × String) : List Char :=
  ' ' :: ' ' :: ' ' :: ' ' ::
    (quote_chars kv.1.data ++ ':' :: ' ' :: quote_chars kv.2.data)

/-- Join pieces with the `",\n"` item separator `json.dump` uses with
`indent`. -/
def sep_list : List (List Char) → List Char
  | [] => []
  | [x] => x
  | x :: y :: t => x ++ ',' :: '\n' :: sep_list (y :: t)

/-- One object at depth 1 (`json.dump` layout for a dict with `indent=2`). -/
def obj_chars (kvs : List (String × String)) : List Char :=
  '{' :: '\n' :: (sep_list (kvs.map member_chars) ++ '\n' :: ' ' :: ' ' :: '}' :: [])

/-- One array element: two spaces of indent, then the object. -/
def elem_chars (o : List (String × String)) : List Char :=
  ' ' :: ' ' :: obj_chars o

/-- The whole document: `json.dump(list_of_dicts, indent=2)`. -/
def doc_chars : List (List (String × String)) → List Char
  | [] => ['[', ']']
  | o :: t => '[' :: '\n' :: (sep_list ((o :: t).map elem_chars) ++ '\n' :: ']' :: [])

/-- `vars(f)`: the dict of one record, in dataclass field order. -/
def film_fields (f : Film) : List (String × String) :=
  [("title", f.title), ("original_title", f.original_title), ("year", f.year),
   ("rating", f.rating), ("genres", f.genres), ("country", f.country),
   ("url", f.url), ("director", f.director)]

/-- `save_to_json`: the exact text written to the file. -/
def save_to_json (films : List Film) : String :=
  String.mk (doc_chars (films.map film_fields))

/-! A JSON reader for documents shaped as an array of objects with string
values (the shape `save_to_json` emits): reading the written document back
models `json.load` on the exported file. -/

/-- JSON whitespace. -/
def is_ws (c : Char) : Bool :=
  c = ' ' ∨ c = '\n' ∨ c = '\t' ∨ c = '\r'

/-- Drop leading whitespace. -/
def skip_ws : List Char → List Char
  | [] => []
  | c :: rest => if is_ws c then skip_ws rest else c :: rest

/-- Value of one hex digit. -/
def hex_val (c : Char) : Option Nat :=
  if '0' ≤ c ∧ c ≤ '9' then some (c.toNat - 48)
  else if 'a' ≤ c ∧ c ≤ 'f' then some (c.toNat - 87)
  else if 'A' ≤ c ∧ c ≤ 'F' then some (c.toNat - 55)
  else none

/-- Single-character escapes. -/
def unesc_char (c : Char) : Option Char :=
  if c = '"' then some '"'
  else if c = '\\' then some '\\'
  else if c = '/' then some '/'
  else if c = 'n' then some '\n'
  else if c = 't' then some '\t'
  else if c = 'r' then some '\r'
  else if c = 'b' then some (Char.ofNat 8)
  else if c = 'f' then some (Char.ofNat 12)
  else none

/-- Parse the body of a string literal after its opening quote; returns
the decoded characters and the remainder after the closing quote. -/
def parse_string_rest : List Char → Option (List Char × List Char)
  | [] => none
  | c :: rest =>
    if c = '"' then some ([], rest)
    else if c = '\\' then
      match rest with
      | 'u' :: h1 :: h2 :: h3 :: h4 :: rest2 =>
        match hex_val h1, hex_val h2, hex_val h3, hex_val h4,
              parse_string_rest rest2 with
        | some a, some b, some c2, some d, some (cs, rem) =>
          some (Char.ofNat (a * 4096 + b * 256 + c2 * 16 + d) :: cs, rem)
        | _, _, _, _, _ => none
      | e :: rest2 =>
        match unesc_char e, parse_string_rest rest2 with
        | some ch, some (cs, rem) => some (ch :: cs, rem)
        | _, _ => none
      | [] => none
    else
      match parse_string_rest rest with
      | some (cs, rem) => some (c :: cs, rem)
      | none => none

/-- Parse a string literal. -/
def parse_json_string (l : List Char) : Option (String × List Char) :=
  match l with
  | c :: rest =>
    if c = '"' then
      match parse_string_rest rest with
      | some (cs, rem) => some (String.mk cs, rem)
      | none => none
    else none
  | [] => none

/-- Parse one `"key": "value"` member. -/
def parse_member (l : List Char) : Option ((String × String) × List Char) :=
  match parse_json_string (skip_ws l) with
  | none => none
  | some (k, r1) =>
    match skip_ws r1 with
    | c :: r2 =>
      if c = ':' then
        match parse_json_string (skip_ws r2) with
        | none => none
        | some (v, r3) => some ((k, v), r3)
      else none
    | [] => none

/-- Parse a non-empty member list up to and including the closing brace. -/
def parse_members : Nat → List Char → Option (List (String × String) × List Char)
  | 0, _ => none
  | mfuel + 1, l =>
    match parse_member l with
    | none => none
    | some (kv, r1) =>
      match skip_ws r1 with
      | c :: r2 =>
        if c = ',' then
          match parse_members mfuel r2 with
          | some (kvs, r3) => some (kv :: kvs, r3)
          | none => none
        else if c = '}' then some ([kv], r2)
        else none
      | [] => none

/-- Parse one non-empty object. -/
def parse_object (mfuel : Nat) (l : List Char) :
    Option (List (String × String) × List Char) :=
  match skip_ws l with
  | c :: r1 => if c = '{' then parse_members mfuel r1 else none
  | [] => none

/-- Parse a non-empty element list up to and including the closing
bracket. -/
def parse_elems (mfuel : Nat) :
    Nat → List Char → Option (List (List (String × String)) × List Char)
  | 0, _ => none
  | efuel + 1, l =>
    match parse_object mfuel l with
    | none => none
    | some (o, r1) =>
      match skip_ws r1 with
      | c :: r2 =>
        if c = ',' then
          match parse_elems mfuel efuel r2 with
          | some (os, r3) => some (o :: os, r3)
          | none => none
        else if c = ']' then some ([o], r2)
        else none
      | [] => none

/-- Read a whole document: an array of objects of string fields. -/
def read_json (s : String) : Option (List (List (String × String))) :=
  match skip_ws s.data with
  | c :: r1 =>
    if c = '[' then
      match r1 with
      | c2 :: r2 =>
        if c2 = ']' then (if skip_ws r2 = [] then some [] else none)
        else
          match parse_elems (s.data.length + 1) (s.data.length + 1) (c2 :: r2) with
          | some (os, rem) => if skip_ws rem = [] then some os else none
          | none => none
      | [] => none
    else none
  | [] => none

/-! Round-trip lemmas: reading back what the renderer wrote. -/

/-- Rebuilding a string from its characters. -/
lemma string_mk_data (s : String) : String.mk s.data = s := rfl

/-- `hex_val` inverts `hexDigit` on digit values. -/
lemma hex_val_hexDigit : ∀ d : Nat, d < 16 → hex_val (hexDigit d) = some d := by
  decide

/-- A character at or above U+0020 other than `"` and `\` is written
literally (in particular every non-ASCII character). -/
lemma esc_char_eq_self (c : Char) (h32 : 32 ≤ c.toNat) (hq : c ≠ '"')
    (hb : c ≠ '\\') : esc_char c = [c] := by
  have h3 : c ≠ '\n' := by intro e; rw [e] at h32; exact absurd h32 (by decide)
  have h4 : c ≠ '\t' := by intro e; rw [e] at h32; exact absurd h32 (by decide)
  have h5 : c ≠ '\r' := by intro e; rw [e] at h32; exact absurd h32 (by decide)
  have h6 : ¬c.toNat = 8 := by omega
  have h7 : ¬c.toNat = 12 := by omega
  have h8 : ¬c.toNat < 32 := by omega
  simp [esc_char, hq, hb, h3, h4, h5, h6, h7, h8]

/-- Decoding inverts escaping: the body parser returns exactly the
original characters and stops at the closing quote. -/
lemma parse_esc (cs : List Char) (rest : List Char) :
    parse_string_rest (esc_chars cs ++ '"' :: rest) = some (cs, rest) := by
  induction cs with
  | nil =>
    show parse_string_rest ('"' :: rest) = some ([], rest)
    rw [parse_string_rest.eq_def]
    simp
  | cons c t ih =>
    show parse_string_rest ((esc_char c ++ esc_chars t) ++ '"' :: rest)
      = some (c :: t, rest)
    rw [List.append_assoc]
    by_cases h1 : c = '"'
    · subst h1
      show parse_string_rest ('\\' :: '"' :: (esc_chars t ++ '"' :: rest)) = _
      rw [parse_string_rest.eq_def]
      simp [unesc_char, ih]
    · by_cases h2 : c = '\\'
      · subst h2
        show parse_string_rest ('\\' :: '\\' :: (esc_chars t ++ '"' :: rest)) = _
        rw [parse_string_rest.eq_def]
        simp [unesc_char, ih]
      · by_cases h3 : c = '\n'
        · subst h3
          show parse_string_rest ('\\' :: 'n' :: (esc_chars t ++ '"' :: rest)) = _
          rw [parse_string_rest.eq_def]
          simp [unesc_char, ih]
        · by_cases h4 : c = '\t'
          · subst h4
            show parse_string_rest ('\\' :: 't' :: (esc_chars t ++ '"' :: rest)) = _
            rw [parse_string_rest.eq_def]
            simp [unesc_char, ih]
          · by_cases h5 : c = '\r'
            · subst h5
              show parse_string_rest ('\\' :: 'r' :: (esc_chars t ++ '"' :: rest)) = _
              rw [parse_string_rest.eq_def]
              simp [unesc_char, ih]
            · by_cases h6 : c.toNat = 8
              · have hc : c = Char.ofNat 8 := by rw [← h6, Char.ofNat_toNat]
                subst hc
                show parse_string_rest ('\\' :: 'b' :: (esc_chars t ++ '"' :: rest)) = _
                rw [parse_string_rest.eq_def]
                simp [unesc_char, ih]
              · by_cases h7 : c.toNat = 12
                · have hc : c = Char.ofNat 12 := by rw [← h7, Char.ofNat_toNat]
                  subst hc
                  show parse_string_rest ('\\' :: 'f' :: (esc_chars t ++ '"' :: rest)) = _
                  rw [parse_string_rest.eq_def]
                  simp [unesc_char, ih]
                · by_cases h8 : c.toNat < 32
                  · have hesc : esc_char c = '\\' :: 'u' :: hex4 c.toNat := by
                      simp [esc_char, h1, h2, h3, h4, h5, h6, h7, h8]
                    rw [hesc]
                    simp only [hex4, List.cons_append, List.nil_append]
                    rw [parse_string_rest.eq_def]
                    have e1 := hex_val_hexDigit (c.toNat / 4096 % 16) (Nat.mod_lt _ (by omega))
                    have e2 := hex_val_hexDigit (c.toNat / 256 % 16) (Nat.mod_lt _ (by omega))
                    have e3 := hex_val_hexDigit (c.toNat / 16 % 16) (Nat.mod_lt _ (by omega))
                    have e4 := hex_val_hexDigit (c.toNat % 16) (Nat.mod_lt _ (by omega))
                    have harith : c.toNat / 4096 % 16 * 4096 + c.toNat / 256 % 16 * 256
                        + c.toNat / 16 % 16 * 16 + c.toNat % 16 = c.toNat := by omega
                    simp [e1, e2, e3, e4, ih, harith, Char.ofNat_toNat]
                  · have hesc : esc_char c = [c] := by
                      simp [esc_char, h1, h2, h3, h4, h5, h6, h7, h8]
                    rw [hesc]
                    show parse_string_rest (c :: (esc_chars t ++ '"' :: rest)) = _
                    rw [parse_string_rest.eq_def]
                    simp only [if_neg h1, if_neg h2, ih]

/-- Reading back a rendered string literal. -/
lemma parse_json_string_quote (s : String) (rest : List Char) :
    parse_json_string ('"' :: (esc_chars s.data ++ '"' :: rest)) = some (s, rest) := by
  unfold parse_json_string
  simp [parse_esc]

/-- Reading back one rendered member after the newline that precedes it. -/
lemma parse_member_render (kv : String × String) (rest : List Char) :
    parse_member ('\n' :: (member_chars kv ++ rest)) = some (kv, rest) := by
  unfold parse_member
  simp only [member_chars, quote_chars, List.cons_append, List.append_assoc,
    List.singleton_append]
  simp [skip_ws, is_ws, parse_json_string_quote]

/-- Reading back a rendered member list (after the newline that follows
the opening brace), up to and including the closing brace. -/
lemma parse_members_render : ∀ (kvs : List (String × String)) (mfuel : Nat),
    kvs ≠ [] → kvs.length < mfuel → ∀ rest : List Char,
    parse_members mfuel ('\n' :: (sep_list (kvs.map member_chars)
      ++ '\n' :: ' ' :: ' ' :: '}' :: rest)) = some (kvs, rest) := by
  intro kvs
  induction kvs with
  | nil => intro _ hne; exact absurd rfl hne
  | cons kv t ih =>
    intro mfuel _ hlt rest
    cases mfuel with
    | zero => omega
    | succ m =>
      cases t with
      | nil =>
        simp only [List.map_cons, List.map_nil, sep_list]
        unfold parse_members
        rw [parse_member_render]
        simp [skip_ws, is_ws]
      | cons kv2 t2 =>
        simp only [List.map_cons, sep_list, List.append_assoc, List.cons_append]
        unfold parse_members
        rw [parse_member_render]
        have hr := ih m (by simp) (by simp at hlt ⊢; omega) rest
        simp only [List.map_cons] at hr
        simp [skip_ws, is_ws, hr]

/-- Reading back a rendered element list (after the newline that follows
the opening bracket), up to and including the closing bracket. -/
lemma parse_elems_render : ∀ (objs : List (List (String × String))) (mfuel : Nat),
    (∀ o ∈ objs, o ≠ [] ∧ o.length < mfuel) → objs ≠ [] →
    ∀ efuel : Nat, objs.length < efuel → ∀ rest : List Char,
    parse_elems mfuel efuel
      ('\n' :: (sep_list (objs.map elem_chars) ++ '\n' :: ']' :: rest))
      = some (objs, rest) := by
  intro objs
  induction objs with
  | nil => intro _ _ hne; exact absurd rfl hne
  | cons o t ih =>
    intro mfuel hobj _ efuel hlt rest
    obtain ⟨ho1, ho2⟩ := hobj o (by simp)
    cases efuel with
    | zero => omega
    | succ e =>
      cases t with
      | nil =>
        simp only [List.map_cons, List.map_nil, sep_list]
        unfold parse_elems parse_object
        simp only [elem_chars, obj_chars, List.cons_append, List.append_assoc,
          List.nil_append]
        have hm := parse_members_render o mfuel ho1 ho2 ('\n' :: ']' :: rest)
        simp [skip_ws, is_ws, hm]
      | cons o2 t2 =>
        simp only [List.map_cons, sep_list, List.cons_append, List.append_assoc]
        unfold parse_elems parse_object
        have hm := parse_members_render o mfuel ho1 ho2
          (',' :: '\n' :: (sep_list (List.map elem_chars (o2 :: t2))
            ++ '\n' :: ']' :: rest))
        have hr := ih mfuel (fun x hx => hobj x (by simp [hx])) (by simp)
          e (by simp at hlt ⊢; omega) rest
        simp only [List.map_cons, elem_chars, obj_chars, List.cons_append,
          List.append_assoc, List.nil_append] at hm hr ⊢
        simp [skip_ws, is_ws, hm, hr]

/-- Rebuilding a string from raw characters. -/
lemma string_data_mk (l : List Char) : (String.mk l).data = l := rfl

/-- Each piece contributes at least one character to the joined list when
no piece is empty. -/
lemma length_le_sep_list : ∀ L : List (List Char),
    (∀ x ∈ L, 1 ≤ x.length) → L.length ≤ (sep_list L).length := by
  intro L
  induction L with
  | nil => intro _; simp [sep_list]
  | cons x t ih =>
    intro h
    cases t with
    | nil => simpa [sep_list] using h x (by simp)
    | cons y t2 =>
      have hx := h x (by simp)
      have ht := ih (fun z hz => h z (by simp [hz]))
      simp only [sep_list, List.length_append, List.length_cons] at ht ⊢
      omega

/-- The first piece is contained in the joined list. -/
lemma head_le_sep_list (x : List Char) (t : List (List Char)) :
    x.length ≤ (sep_list (x :: t)).length := by
  cases t with
  | nil => simp [sep_list]
  | cons y t2 => simp [sep_list]

/-- A rendered member is never empty. -/
lemma one_le_length_member (kv : String × String) :
    1 ≤ (member_chars kv).length := by
  simp [member_chars]

/-- An object's rendering is at least as long as its member count. -/
lemma kvs_le_obj_chars (kvs : List (String × String)) :
    kvs.length ≤ (obj_chars kvs).length := by
  have h1 := length_le_sep_list (kvs.map member_chars)
    (by intro x hx
        obtain ⟨kv, _, rfl⟩ := List.mem_map.mp hx
        exact one_le_length_member kv)
  simp only [List.length_map] at h1
  simp only [obj_chars, List.length_cons, List.length_append]
  omega

/-- A rendered element is never empty. -/
lemma one_le_length_elem (o : List (String × String)) :
    1 ≤ (elem_chars o).length := by
  simp [elem_chars]

/-- Reading back the document `save_to_json` writes yields exactly the
dicts `vars(f)` of the original records. -/
lemma read_json_save (films : List Film) :
    read_json (save_to_json films) = some (films.map film_fields) := by
  cases films with
  | nil => rfl
  | cons f fs =>
    unfold read_json save_to_json
    simp only [string_data_mk, List.map_cons, doc_chars]
    have hsep := length_le_sep_list
      ((elem_chars (film_fields f)) :: (fs.map film_fields).map elem_chars)
      (by intro x hx
          simp only [List.mem_cons] at hx
          rcases hx with rfl | hx
          · exact one_le_length_elem _
          · obtain ⟨o, _, rfl⟩ := List.mem_map.mp hx
            exact one_le_length_elem o)
    have hhead := head_le_sep_list (elem_chars (film_fields f))
      ((fs.map film_fields).map elem_chars)
    have hobj8 : (8 : Nat) ≤ (obj_chars (film_fields f)).length := by
      have := kvs_le_obj_chars (film_fields f)
      simpa [film_fields] using this
    have helem : (obj_chars (film_fields f)).length
        ≤ (elem_chars (film_fields f)).length := by
      simp [elem_chars]
      omega
    have hpe := parse_elems_render (film_fields f :: fs.map film_fields)
      (('[' :: '\n' :: (sep_list ((film_fields f :: fs.map film_fields).map
        elem_chars) ++ '\n' :: ']' :: [])).length + 1)
      (by intro o ho
          simp only [List.mem_cons] at ho
          have holen : o.length = 8 := by
            rcases ho with rfl | ho
            · rfl
            · obtain ⟨x, _, rfl⟩ := List.mem_map.mp ho
              rfl
          constructor
          · intro he; rw [he] at holen; simp at holen
          · rw [holen]
            simp only [List.map_cons, List.length_cons, List.length_append]
            omega)
      (by simp)
      (('[' :: '\n' :: (sep_list ((film_fields f :: fs.map film_fields).map
        elem_chars) ++ '\n' :: ']' :: [])).length + 1)
      (by simp only [List.map_cons, List.length_cons, List.length_append,
            List.length_map] at hsep ⊢
          omega)
      []
    simp only [List.map_cons] at hpe
    simp at hpe
    simp [skip_ws, is_ws, hpe]

/-- C8: serializing any list of N film records with the structured (JSON)
export and parsing the document back yields exactly the N objects
`vars(f)`, with field names and string values identical to the original
records; and every character at or above U+0020 other than `"` and `\` —
in particular every non-ASCII character — is written literally, not
escaped (`ensure_ascii=False`). -/
theorem json_round_trip (films : List Film) (c : Char)
    (h32 : 32 ≤ c.toNat) (hq : c ≠ '"') (hb : c ≠ '\\') :
    read_json (save_to_json films) = some (films.map film_fields)
    ∧ (films.map film_fields).length = films.length
    ∧ esc_char c = [c] :=
  ⟨read_json_save films, by simp, esc_char_eq_self c h32 hq hb⟩

/-- Witness for C8: two records with Cyrillic field values, and the
Cyrillic letter `ф` kept literal. -/
theorem json_round_trip_witness :
    read_json (save_to_json [w_film1, w_film2])
      = some ([w_film1, w_film2].map film_fields)
    ∧ ([w_film1, w_film2].map film_fields).length = [w_film1, w_film2].length
    ∧ esc_char 'ф' = ['ф'] :=
  json_round_trip [w_film1, w_film2] 'ф' (by decide) (by decide) (by decide)

end KinoMail
